import Mathlib

/-!
Verification of the ulna configuration validator (`src/ulna/src/ulna/`):
the value model produced by TOML parsing, the predicate layer
(`predicates.py`), the schema-driven validation engine (`validator.py`)
and the load boundary (`config.py`), shallowly embedded in Lean.
-/

set_option autoImplicit false

/-- The untyped tree produced by parsing a TOML document, as the Python
code observes it: a dict with string keys (`table`), a list (`vlist`),
a `str`, the Python `None` object (`pyNone`), or any other scalar
(`other`: integers, booleans, dates).  `pyNone` is a first-class value
because `dict.get` returns the `None` object both when a key is absent
and when the key is explicitly bound to `None`; the validator cannot
tell those two situations apart. -/
inductive Value : Type where
  | table (entries : List (String × Value))
  | vlist (items : List Value)
  | str (s : String)
  | pyNone
  | other

/-- Python `dict.get(key)` over a table's entry list: the first binding
of `key`, or the `None` object when the key is absent.  Python dicts
never hold a key twice, so entry lists of interest have nodup keys. -/
def py_get : List (String × Value) → String → Value
  | [], _ => .pyNone
  | (k, v) :: rest, key => if k = key then v else py_get rest key

/-- `datatypes.Predicate`: a named boolean classifier over one value
(`name` is used verbatim in diagnostics, `function` is the check). -/
structure Predicate : Type where
  name : String
  function : Value → Bool

/-- `predicates.is_string`: `type(value) is str`. -/
def is_string : Predicate :=
  ⟨"string", fun v =>
    match v with
    | .str _ => true
    | _ => false⟩

/-- `predicates.is_list_of_strings`: `type(value) is list` and every
item has `type(item) is str`. -/
def is_list_of_strings : Predicate :=
  ⟨"list of strings", fun v =>
    match v with
    | .vlist items =>
      items.all (fun item =>
        match item with
        | .str _ => true
        | _ => false)
    | _ => false⟩

/-- `predicates.is_any_dict`: `type(value) is dict`. -/
def is_any_dict : Value → Bool
  | .table _ => true
  | _ => false

/-- `predicates._is_lowercase_letter_or_underscore`: every character of
`particle` satisfies `"a" <= char <= "z" or char == "_"`.  Comparison of
one-character Python strings is code-point comparison, embedded on
`Char`. -/
def is_lowercase_letter_or_underscore (particle : String) : Bool :=
  particle.toList.all (fun char =>
    (decide ('a' ≤ char) && decide (char ≤ 'z')) || char == '_')

/-- `predicates.is_project_identifier`: a string all of whose characters
are lowercase letters or underscores.  The source iterates the string
and feeds each one-character string to
`_is_lowercase_letter_or_underscore`. -/
def is_project_identifier : Predicate :=
  ⟨"project identifier", fun v =>
    match v with
    | .str s =>
      s.toList.all (fun char =>
        is_lowercase_letter_or_underscore (String.singleton char))
    | _ => false⟩

/-- `predicates.is_compiler_name`: `value == "gcc"`. -/
def is_compiler_name : Predicate :=
  ⟨"compiler name", fun v =>
    match v with
    | .str s => s == "gcc"
    | _ => false⟩

/-- The five diagnostic variants of `validator.py`, with the fields each
dataclass stores. -/
inductive ValidationError : Type where
  | fieldTypeError (field_name : String) (section_name : Option String)
      (expected_type : String)
  | sectionKindError (section_name : String)
  | missingFieldError (field_name : String) (section_name : Option String)
  | missingSectionError (section_name : String)
  | nonexistentFieldError (field_name : String) (section_name : Option String)
  deriving DecidableEq

/-- `validator.ValidationField`: a leaf entry expected under a section,
checked by a named predicate. -/
structure ValidationField : Type where
  name : String
  validator : Predicate
  optional : Bool

mutual
/-- `validator.Validator`: `section_name` (`None` for the root schema),
the declared fields, and the declared sections. -/
inductive Validator : Type where
  | mk (section_name : Option String) (fields : List ValidationField)
      (sections : ValidationSections)
/-- `validator.ValidationSection`: a nested table expected under a
parent schema, governed by a sub-validator. -/
inductive ValidationSection : Type where
  | mk (name : String) (validator : Validator) (optional : Bool)
/-- The list of `ValidationSection`s of one validator, spelled as its
own spine so that the engine recurses structurally. -/
inductive ValidationSections : Type where
  | nil
  | cons (head : ValidationSection) (rest : ValidationSections)
end

/-- `Validator.section_name`. -/
def Validator.section_name : Validator → Option String
  | .mk sname _ _ => sname

/-- `Validator.name` (property): `"config"` when `section_name` is
`None`, else the section name. -/
def Validator.name : Validator → String
  | .mk none _ _ => "config"
  | .mk (some n) _ _ => n

/-- Names of a spine of sections. -/
def section_names : ValidationSections → List String
  | .nil => []
  | .cons (.mk n _ _) rest => n :: section_names rest

/-- `Validator._get_entry_names`: the set of recognized names, the
field names together with the section names (the source builds a
Python set; only membership is ever used). -/
def get_entry_names (fields : List ValidationField)
    (sections : ValidationSections) : List String :=
  fields.map ValidationField.name ++ section_names sections

/-- `Validator._get_unrecognized_entries`: the keys of `data` that are
not recognized entry names.  The source materializes a Python set of
keys; this embedding keeps the dict's key order, which fixes one of the
orders the set may enumerate (no claim depends on the order inside this
group). -/
def get_unrecognized_entries (fields : List ValidationField)
    (sections : ValidationSections)
    (entries : List (String × Value)) : List String :=
  (entries.map Prod.fst).filter
    (fun key => !(get_entry_names fields sections).contains key)

/-- `Validator._check_field`: a `None` value (absent key, or a key
explicitly bound to `None`) is a `MissingFieldError` when the field is
required and no diagnostic when it is optional; a present value failing
the predicate is a `FieldTypeError` carrying the predicate's name.  The
`Ok` payload (`Nothing`/`Some(value)`) is kept as an `Option Value`
exactly as in the source, though the engine discards it. -/
def check_field (section_name : Option String) (name : String)
    (value : Value) (validator : Predicate) (optional : Bool) :
    Except ValidationError (Option Value) :=
  match value with
  | .pyNone =>
    if !optional then .error (.missingFieldError name section_name)
    else .ok none
  | v =>
    if !validator.function v then
      .error (.fieldTypeError name section_name validator.name)
    else .ok (some v)

/-- The diagnostic (if any) contributed by one declared field inside
`Validator.validate`: the `Err` side of `_check_field` applied to
`data.get(field.name)`. -/
def field_error (section_name : Option String)
    (entries : List (String × Value)) (field : ValidationField) :
    Option ValidationError :=
  match check_field section_name field.name (py_get entries field.name)
      field.validator field.optional with
  | .error e => some e
  | .ok _ => none

/-- The diagnostic list of a validation result (empty on success). -/
def error_list : Except (List ValidationError) Value →
    List ValidationError
  | .error errs => errs
  | .ok _ => []

/-- Whether a validation result is a success. -/
def is_success : Except (List ValidationError) Value → Bool
  | .ok _ => true
  | .error _ => false

mutual
/-- `Validator.validate`: a non-dict input yields the single
`SectionKindError(self.name)`; a dict accumulates one
`NonexistentFieldError` per unrecognized key, then the field
diagnostics in declaration order, then the diagnostics of every
declared section; an empty accumulated list means success with the
original input returned unchanged. -/
def Validator.validate : Validator → Value →
    Except (List ValidationError) Value
  | .mk sname fields sections, .table entries =>
    let errors :=
      (get_unrecognized_entries fields sections entries).map
        (fun entry => ValidationError.nonexistentFieldError entry sname)
      ++ fields.filterMap (field_error sname entries)
      ++ sections_errors sections entries
    if errors.isEmpty then .ok (.table entries) else .error errors
  | v, _ => .error [.sectionKindError v.name]

/-- The diagnostics contributed by a spine of declared sections, in
declaration order (`validate`'s third loop, which `extend`s the error
list with each section's diagnostics). -/
def sections_errors : ValidationSections → List (String × Value) →
    List ValidationError
  | .nil, _ => []
  | .cons s rest, entries =>
    check_section_errors s entries ++ sections_errors rest entries

/-- `Validator._check_section` (its `Err` side): an absent (or `None`)
required section is a `MissingSectionError(validator.name)`, an absent
optional section contributes nothing, and a present value's diagnostics
are those of the sub-validator's `validate`, appended unwrapped. -/
def check_section_errors : ValidationSection → List (String × Value) →
    List ValidationError
  | .mk name validator optional, entries =>
    match py_get entries name with
    | .pyNone =>
      if !optional then [.missingSectionError validator.name] else []
    | val => error_list (validator.validate val)
end

/-- The full diagnostic list `Validator.validate` accumulates for a
table input: the unrecognized-key group, then the field group, then
the section group. -/
def accumulated_errors (sname : Option String)
    (fields : List ValidationField) (sections : ValidationSections)
    (entries : List (String × Value)) : List ValidationError :=
  (get_unrecognized_entries fields sections entries).map
      (fun entry => ValidationError.nonexistentFieldError entry sname)
    ++ fields.filterMap (field_error sname entries)
    ++ sections_errors sections entries

/-- Python truthiness of a `result.Result` object.  The result
library's `Ok` and `Err` classes define `__match_args__`, `__eq__`,
`__hash__` and the usual combinators but no `__bool__`, so every
`Result` instance falls back to the default object truthiness and is
truthy; `if not some_result:` is never taken. -/
def result_truthy : Except (List ValidationError) Value → Bool :=
  fun _ => true

/-- In `config.py`, `CONFIG_VALIDATOR` registers its entries with
`add_field`, passing the bound method `<sub_validator>.validate` where
a `Predicate` is expected.  Calling that "predicate" returns a
`result.Result`, which is always truthy (see `result_truthy`), so
`_check_field`'s failure branch is unreachable for these fields; that
branch would in fact crash reading `.name` off a bound method, and the
name recorded here stands for that unreachable attribute read. -/
def bound_method_predicate (v : Validator) : Predicate :=
  ⟨"", fun value => result_truthy (v.validate value)⟩

/-- `config.PROGRAM_SECTION_VALIDATOR`, as produced by its builder
chain: built from `Builder()` with no name, so `section_name` is
`None`; a required `name` field checked by `is_project_identifier` and
an optional `description` field checked by `is_string`; no sections. -/
def PROGRAM_SECTION_VALIDATOR : Validator :=
  .mk none
    [⟨"name", is_project_identifier, false⟩,
     ⟨"description", is_string, true⟩]
    .nil

/-- `config.DEPENDENCIES_SECTION_VALIDATOR`: optional `include_dirs`
and `include_shared` fields, both checked by `is_list_of_strings`. -/
def DEPENDENCIES_SECTION_VALIDATOR : Validator :=
  .mk none
    [⟨"include_dirs", is_list_of_strings, true⟩,
     ⟨"include_shared", is_list_of_strings, true⟩]
    .nil

/-- `config.BUILD_SECTION_VALIDATOR`: an optional `compiler` field
checked by `is_compiler_name` and an optional `additional_flags` field
checked by `is_list_of_strings`. -/
def BUILD_SECTION_VALIDATOR : Validator :=
  .mk none
    [⟨"compiler", is_compiler_name, true⟩,
     ⟨"additional_flags", is_list_of_strings, true⟩]
    .nil

/-- The three entries of `config.CONFIG_VALIDATOR`: a required
`program` field and optional `dependencies` and `build` fields, each
"checked" by the bound `validate` method of the matching section
validator (`add_field`, not `add_section`, is used for all three). -/
def CONFIG_FIELDS : List ValidationField :=
  [⟨"program", bound_method_predicate PROGRAM_SECTION_VALIDATOR, false⟩,
   ⟨"dependencies", bound_method_predicate DEPENDENCIES_SECTION_VALIDATOR, true⟩,
   ⟨"build", bound_method_predicate BUILD_SECTION_VALIDATOR, true⟩]

/-- `config.CONFIG_VALIDATOR`: the root schema, built from `Builder()`
with no name and `CONFIG_FIELDS` as its fields; it declares no
sections. -/
def CONFIG_VALIDATOR : Validator :=
  .mk none CONFIG_FIELDS .nil

/-- What the file system holds at a path, as `open`/`read` observe it:
no file, a file without read permission, or a readable file with some
contents. -/
inductive FileOutcome : Type where
  | missing
  | unreadable
  | readable (contents : String)

/-- The `config.LoadError` union: `ConfigFileNotFoundError`,
`ConfigFilePermissionError`, `MalformedTOMLError`, and
`InvalidConfigFileError` with its `field_name` and `message`. -/
inductive LoadError : Type where
  | configFileNotFoundError
  | configFilePermissionError
  | malformedTOMLError
  | invalidConfigFileError (field_name : String) (message : String)
  deriving DecidableEq

/-- `config.load`, parameterized by the file system, by the external
`tomllib.loads` (`none` models a `TOMLDecodeError`), and by the
configuration check called on the parsed tree (`config.load` passes
`CONFIG_VALIDATOR.validate`).  Python exception semantics embedded
here: `open` on a missing path raises `FileNotFoundError` and on an
existing file without read permission raises `PermissionError`, both
subclasses of `OSError`, so the source's `except OSError` around
`open` catches both and answers `ConfigFileNotFoundError`; reading an
already successfully opened regular file raises nothing, so the
source's later `except PermissionError` around `file.read()` never
fires.  The final `if not CONFIG_VALIDATOR.validate(config):` test
goes through `result_truthy`. -/
def load_with (check : Value → Except (List ValidationError) Value)
    (fs : String → FileOutcome) (parse_toml : String → Option Value)
    (path : String) : Except LoadError Value :=
  match fs path with
  | .missing => .error .configFileNotFoundError
  | .unreadable => .error .configFileNotFoundError
  | .readable raw_contents =>
    match parse_toml raw_contents with
    | none => .error .malformedTOMLError
    | some config =>
      if !result_truthy (check config) then
        .error (.invalidConfigFileError "unknown" "invalid field")
      else .ok config

/-- `config.load` proper: `load_with` applied to
`CONFIG_VALIDATOR.validate`. -/
def load (fs : String → FileOutcome) (parse_toml : String → Option Value)
    (path : String) : Except LoadError Value :=
  load_with CONFIG_VALIDATOR.validate fs parse_toml path

/-- Whether one declared field is violated by a table: its key absent
(or bound to `None`) while required, or present with a value its
predicate rejects. -/
def field_violates (entries : List (String × Value))
    (field : ValidationField) : Bool :=
  match py_get entries field.name with
  | .pyNone => !field.optional
  | v => !field.validator.function v

mutual
/-- The number of independent ways a tree violates a schema node: a
non-dict node counts once (its shape is wrong); a dict counts one per
unrecognized key, one per violated declared field, and, per declared
section, one when a required section is absent or the nested count
when it is present. -/
def violation_count : Validator → Value → Nat
  | .mk _ fields sections, .table entries =>
    (get_unrecognized_entries fields sections entries).length
      + (fields.filter (field_violates entries)).length
      + sections_violation_count sections entries
  | _, _ => 1

/-- The violation count contributed by a spine of declared sections. -/
def sections_violation_count : ValidationSections →
    List (String × Value) → Nat
  | .nil, _ => 0
  | .cons (.mk name validator optional) rest, entries =>
    (match py_get entries name with
     | .pyNone => if optional then 0 else 1
     | val => violation_count validator val)
      + sections_violation_count rest entries
end

/-- Removing one key from a table, for stating that a `None`-bound key
behaves exactly as an absent one. -/
def remove_key (entries : List (String × Value)) (key : String) :
    List (String × Value) :=
  entries.filter (fun e => e.1 != key)

/-! Helper lemmas shared by the claim theorems. -/

theorem toList_singleton (c : Char) : (String.singleton c).toList = [c] :=
  rfl

theorem remove_key_cons (k0 : String) (v0 : Value)
    (rest : List (String × Value)) (k : String) :
    remove_key ((k0, v0) :: rest) k =
      if k0 = k then remove_key rest k
      else (k0, v0) :: remove_key rest k := by
  by_cases h : k0 = k
  · simp [remove_key, List.filter_cons, h]
  · simp [remove_key, List.filter_cons, h]

theorem py_get_eq_pyNone_of_mem :
    ∀ (entries : List (String × Value)) (k : String),
      (entries.map Prod.fst).Nodup → (k, Value.pyNone) ∈ entries →
      py_get entries k = Value.pyNone
  | [], _, _, hmem => absurd hmem (List.not_mem_nil _)
  | (k0, v0) :: rest, k, hnd, hmem => by
    rcases List.mem_cons.mp hmem with heq | hmem'
    · injection heq with hk hv
      subst hk
      simp [py_get, hv]
    · have hk0 : k0 ≠ k := by
        intro hk0
        have hkeys : k ∈ rest.map Prod.fst :=
          List.mem_map.mpr ⟨(k, Value.pyNone), hmem', rfl⟩
        rw [List.map_cons] at hnd
        exact (List.nodup_cons.mp hnd).1 (hk0 ▸ hkeys)
      have htail : (rest.map Prod.fst).Nodup := by
        rw [List.map_cons] at hnd
        exact (List.nodup_cons.mp hnd).2
      simp only [py_get, if_neg hk0]
      exact py_get_eq_pyNone_of_mem rest k htail hmem'

theorem py_get_remove_key_self :
    ∀ (entries : List (String × Value)) (k : String),
      py_get (remove_key entries k) k = Value.pyNone
  | [], _ => rfl
  | (k0, v0) :: rest, k => by
    rw [remove_key_cons]
    by_cases h : k0 = k
    · rw [if_pos h]
      exact py_get_remove_key_self rest k
    · rw [if_neg h]
      simp only [py_get, if_neg h]
      exact py_get_remove_key_self rest k

theorem py_get_remove_key_ne :
    ∀ (entries : List (String × Value)) (k key : String), key ≠ k →
      py_get (remove_key entries k) key = py_get entries key
  | [], _, _, _ => rfl
  | (k0, v0) :: rest, k, key, hne => by
    rw [remove_key_cons]
    by_cases h : k0 = k
    · rw [if_pos h]
      have hk0 : k0 ≠ key := fun hc => hne (hc ▸ h)
      simp only [py_get, if_neg hk0]
      exact py_get_remove_key_ne rest k key hne
    · rw [if_neg h]
      by_cases hk : k0 = key
      · simp [py_get, hk]
      · simp only [py_get, if_neg hk]
        exact py_get_remove_key_ne rest k key hne

theorem validate_table_eq (sname : Option String)
    (fields : List ValidationField) (sections : ValidationSections)
    (entries : List (String × Value)) :
    (Validator.mk sname fields sections).validate (.table entries) =
      if (accumulated_errors sname fields sections entries).isEmpty
      then .ok (.table entries)
      else .error (accumulated_errors sname fields sections entries) :=
  rfl

theorem violation_count_table_eq (sname : Option String)
    (fields : List ValidationField) (sections : ValidationSections)
    (entries : List (String × Value)) :
    violation_count (.mk sname fields sections) (.table entries) =
      (get_unrecognized_entries fields sections entries).length
        + (fields.filter (field_violates entries)).length
        + sections_violation_count sections entries :=
  rfl

theorem field_error_isSome (sn : Option String)
    (entries : List (String × Value)) (f : ValidationField) :
    (field_error sn entries f).isSome = field_violates entries f := by
  unfold field_error field_violates
  cases hv : py_get entries f.name with
  | pyNone => cases f.optional <;> simp [check_field]
  | table es =>
    cases hb : f.validator.function (.table es) <;> simp [check_field, hb]
  | vlist items =>
    cases hb : f.validator.function (.vlist items) <;> simp [check_field, hb]
  | str s =>
    cases hb : f.validator.function (.str s) <;> simp [check_field, hb]
  | other =>
    cases hb : f.validator.function .other <;> simp [check_field, hb]

theorem length_filterMap_field_error (sn : Option String)
    (entries : List (String × Value)) :
    ∀ (fields : List ValidationField),
      (fields.filterMap (field_error sn entries)).length
        = (fields.filter (field_violates entries)).length
  | [] => rfl
  | f :: rest => by
    have h := field_error_isSome sn entries f
    rw [List.filterMap_cons, List.filter_cons]
    cases hfe : field_error sn entries f with
    | none =>
      rw [hfe] at h
      simp only [Option.isSome_none] at h
      rw [← h, if_neg Bool.false_ne_true]
      exact length_filterMap_field_error sn entries rest
    | some e =>
      rw [hfe] at h
      simp only [Option.isSome_some] at h
      rw [← h, if_pos rfl]
      simp only [List.length_cons]
      rw [length_filterMap_field_error sn entries rest]

mutual
theorem error_list_length_eq : ∀ (v : Validator) (t : Value),
    (error_list (v.validate t)).length = violation_count v t
  | .mk sname fields sections, .table entries => by
    rw [validate_table_eq, violation_count_table_eq,
      ← length_filterMap_field_error sname entries fields,
      ← sections_errors_length_eq sections entries]
    cases hE : (accumulated_errors sname fields sections entries).isEmpty with
    | true =>
      have h0 : accumulated_errors sname fields sections entries = [] :=
        List.isEmpty_iff.mp hE
      have hlen := congrArg List.length h0
      simp only [accumulated_errors, List.length_append, List.length_map,
        List.length_nil] at hlen
      rw [if_pos rfl]
      simp only [error_list, List.length_nil]
      omega
    | false =>
      rw [if_neg Bool.false_ne_true]
      simp only [error_list, accumulated_errors, List.length_append,
        List.length_map]
  | .mk sname fields sections, .vlist items => rfl
  | .mk sname fields sections, .str s => rfl
  | .mk sname fields sections, .pyNone => rfl
  | .mk sname fields sections, .other => rfl

theorem sections_errors_length_eq : ∀ (sections : ValidationSections)
    (entries : List (String × Value)),
    (sections_errors sections entries).length
      = sections_violation_count sections entries
  | .nil, _ => rfl
  | .cons (.mk name validator optional) rest, entries => by
    simp only [sections_errors, check_section_errors,
      sections_violation_count, List.length_append]
    rw [sections_errors_length_eq rest entries]
    congr 1
    cases py_get entries name with
    | pyNone => cases optional <;> rfl
    | table es => exact error_list_length_eq validator (.table es)
    | vlist items => exact error_list_length_eq validator (.vlist items)
    | str s => exact error_list_length_eq validator (.str s)
    | other => exact error_list_length_eq validator .other
end

/-! Claim theorems. -/

/-- C1 (counterexample): the claim says `is_project_identifier` accepts
exactly the nonempty `-`-separated segment strings, so it would return
true on `"foo-bar"` and false on `""`; the code does the opposite on
both inputs. -/
theorem is_project_identifier_claim_false :
    is_project_identifier.function (Value.str "foo-bar") = false
    ∧ is_project_identifier.function (Value.str "") = true := by
  decide

/-- C1 (amended): `is_project_identifier` returns true exactly on
strings all of whose characters are lowercase ASCII letters or
underscores; the hyphen is rejected and the empty string is accepted
(the `all` over zero characters is vacuously true). -/
theorem is_project_identifier_characterization (v : Value) :
    is_project_identifier.function v = true ↔
      ∃ s, v = Value.str s ∧
        ∀ c ∈ s.toList, ('a' ≤ c ∧ c ≤ 'z') ∨ c = '_' := by
  cases v with
  | str s =>
    simp only [is_project_identifier]
    constructor
    · intro h
      refine ⟨s, rfl, fun c hc => ?_⟩
      have hall := List.all_eq_true.mp h c hc
      simp only [is_lowercase_letter_or_underscore, toList_singleton,
        List.all_cons, List.all_nil, Bool.and_true, Bool.or_eq_true,
        Bool.and_eq_true, decide_eq_true_eq, beq_iff_eq] at hall
      exact hall
    · rintro ⟨s', hs, hall⟩
      injection hs with hss
      subst hss
      refine List.all_eq_true.mpr fun c hc => ?_
      have hc' := hall c hc
      simp only [is_lowercase_letter_or_underscore, toList_singleton,
        List.all_cons, List.all_nil, Bool.and_true, Bool.or_eq_true,
        Bool.and_eq_true, decide_eq_true_eq, beq_iff_eq]
      exact hc'
  | table entries => simp [is_project_identifier]
  | vlist items => simp [is_project_identifier]
  | pyNone => simp [is_project_identifier]
  | other => simp [is_project_identifier]

/-- C2 (counterexample): validating the empty table with
`CONFIG_VALIDATOR` does fail, but its diagnostic list is not the
single `MissingSectionError("program")` the claim states. -/
theorem config_empty_table_claim_false :
    error_list (CONFIG_VALIDATOR.validate (Value.table []))
        ≠ [ValidationError.missingSectionError "program"]
    ∧ is_success (CONFIG_VALIDATOR.validate (Value.table [])) = false := by
  decide

/-- C2 (amended): validating the empty table with the full
configuration schema returns a failure whose diagnostic list is
exactly one `MissingFieldError` carrying the field name `"program"`
and no section name, because `config.py` registers the program section
with `add_field` (not `add_section`) on the root builder, whose
`section_name` is `None`. -/
theorem config_empty_table_missing_field :
    CONFIG_VALIDATOR.validate (Value.table [])
      = .error [.missingFieldError "program" none] :=
  rfl

/-- C3: `load` returns either a success or exactly one of the three
acquisition errors, and its result does not depend on the
configuration check it is handed: the `InvalidConfigFileError` branch
is dead because `result.Result` objects are always truthy, so the
observable behaviour performs no schema validation and surfaces no
schema-tier diagnostic. -/
theorem load_acquisition_only
    (check1 check2 : Value → Except (List ValidationError) Value)
    (fs : String → FileOutcome) (parse_toml : String → Option Value)
    (path : String) :
    load_with check1 fs parse_toml path = load_with check2 fs parse_toml path
    ∧ ((∃ v, load_with check1 fs parse_toml path = .ok v)
       ∨ load_with check1 fs parse_toml path
           = .error .configFileNotFoundError
       ∨ load_with check1 fs parse_toml path
           = .error .configFilePermissionError
       ∨ load_with check1 fs parse_toml path
           = .error .malformedTOMLError) := by
  cases hfs : fs path with
  | missing =>
    refine ⟨?_, Or.inr (Or.inl ?_)⟩ <;> simp [load_with, hfs]
  | unreadable =>
    refine ⟨?_, Or.inr (Or.inl ?_)⟩ <;> simp [load_with, hfs]
  | readable raw_contents =>
    cases hp : parse_toml raw_contents with
    | none =>
      refine ⟨?_, Or.inr (Or.inr (Or.inr ?_))⟩ <;> simp [load_with, hfs, hp]
    | some config =>
      refine ⟨?_, Or.inl ⟨config, ?_⟩⟩ <;>
        simp [load_with, hfs, hp, result_truthy]

/-- C4 (code bug): for a file that exists but has no read permission,
`open` raises `PermissionError`, a subclass of `OSError`, so the
source's `except OSError` around `open` catches it and `load` answers
`ConfigFileNotFoundError` — the same variant as for a missing file —
and never the `ConfigFilePermissionError` the code itself defines for
exactly this situation. -/
theorem load_unreadable_not_found :
    load (fun _ => FileOutcome.unreadable) (fun _ => none)
        "ulna-project.toml" = .error .configFileNotFoundError
    ∧ load (fun _ => FileOutcome.missing) (fun _ => none)
        "ulna-project.toml" = .error .configFileNotFoundError
    ∧ load (fun _ => FileOutcome.unreadable) (fun _ => none)
        "ulna-project.toml" ≠ .error .configFilePermissionError :=
  ⟨rfl, rfl, fun h => nomatch h⟩

/-- C5: the engine accumulates every violation instead of stopping at
the first: the diagnostic list of a failing `validate` call has
exactly `violation_count` elements — one per unrecognized key, one per
violated declared field, one per missing required section, plus the
nested counts of present sections — and a succeeding call has
violation count zero. -/
theorem validate_accumulates_all_violations (v : Validator) (t : Value) :
    (∀ errs, v.validate t = .error errs →
        errs.length = violation_count v t)
    ∧ (∀ u, v.validate t = .ok u → violation_count v t = 0) := by
  constructor
  · intro errs h
    have hlen := error_list_length_eq v t
    rw [h] at hlen
    exact hlen
  · intro u h
    have hlen := error_list_length_eq v t
    rw [h] at hlen
    simpa [error_list] using hlen.symm

/-- C5 (witness): the empty-but-for-an-unknown-key table violates the
configuration schema in two independent ways and gets exactly two
diagnostics. -/
theorem validate_accumulates_all_violations_witness :
    ([ValidationError.nonexistentFieldError "extra" none,
      ValidationError.missingFieldError "program" none]).length
      = violation_count CONFIG_VALIDATOR
          (Value.table [("extra", Value.other)]) :=
  (validate_accumulates_all_violations CONFIG_VALIDATOR
      (Value.table [("extra", Value.other)])).1
    [ValidationError.nonexistentFieldError "extra" none,
     ValidationError.missingFieldError "program" none] rfl

/-- C6: a non-dict input to any schema node yields exactly the single
`SectionKindError` carrying the node's `name` (the `"config"` default
when `section_name` is `None`), with no diagnostics from inside the
node. -/
theorem validate_non_table_section_kind (v : Validator) (t : Value)
    (h : is_any_dict t = false) :
    v.validate t = .error [.sectionKindError v.name] := by
  cases v with
  | mk sname fields sections =>
    cases t with
    | table entries => simp [is_any_dict] at h
    | vlist items => rfl
    | str s => rfl
    | pyNone => rfl
    | other => rfl

/-- C6 (witness): a bare string in place of the whole configuration
table yields exactly the `SectionKindError` named `"config"`. -/
theorem validate_non_table_section_kind_witness :
    CONFIG_VALIDATOR.validate (Value.str "x")
      = .error [.sectionKindError "config"] :=
  validate_non_table_section_kind CONFIG_VALIDATOR (Value.str "x") rfl

/-- C8: a successful `validate` returns the original input tree
itself, unchanged — the source's final `return result.Ok(data)` hands
back the very value it was given. -/
theorem validate_ok_returns_original (v : Validator) (t u : Value)
    (h : v.validate t = .ok u) : u = t := by
  cases v with
  | mk sname fields sections =>
    cases t with
    | table entries =>
      rw [validate_table_eq] at h
      split at h
      · exact (Except.ok.inj h).symm
      · exact Except.noConfusion h
    | vlist items => exact Except.noConfusion h
    | str s => exact Except.noConfusion h
    | pyNone => exact Except.noConfusion h
    | other => exact Except.noConfusion h

/-- C8 (witness): the dependencies schema accepts the empty table and
returns it unchanged. -/
theorem validate_ok_returns_original_witness :
    Value.table [] = Value.table [] :=
  validate_ok_returns_original DEPENDENCIES_SECTION_VALIDATOR
    (Value.table []) (Value.table []) rfl

/-- C9: `validate` is a pure function of the schema and the tree, so
two calls on the same pair yield structurally equal results. -/
theorem validate_deterministic (v : Validator) (t : Value) :
    v.validate t = v.validate t :=
  rfl

/-- C7: every unrecognized key of the table is reported: on success
there are none, and on failure the diagnostic list starts with exactly
one `NonexistentFieldError` carrying each unrecognized key and the
schema's `section_name`, one per key. -/
theorem validate_reports_all_unrecognized (sname : Option String)
    (fields : List ValidationField) (sections : ValidationSections)
    (entries : List (String × Value))
    (hnd : (entries.map Prod.fst).Nodup) :
    (∀ u, (Validator.mk sname fields sections).validate (.table entries)
          = .ok u →
        get_unrecognized_entries fields sections entries = [])
    ∧ (∀ errs, (Validator.mk sname fields sections).validate (.table entries)
          = .error errs →
        (∃ rest, errs =
            (get_unrecognized_entries fields sections entries).map
              (fun key => ValidationError.nonexistentFieldError key sname)
            ++ rest)
        ∧ ∀ k ∈ get_unrecognized_entries fields sections entries,
            ((get_unrecognized_entries fields sections entries).map
                (fun key => ValidationError.nonexistentFieldError key sname)).count
              (ValidationError.nonexistentFieldError k sname) = 1) := by
  have hnodup : (get_unrecognized_entries fields sections entries).Nodup :=
    List.Nodup.filter _ hnd
  constructor
  · intro u h
    rw [validate_table_eq] at h
    split at h
    case isTrue hE =>
      have h0 : accumulated_errors sname fields sections entries = [] :=
        List.isEmpty_iff.mp hE
      simp only [accumulated_errors] at h0
      have h1 := (List.append_eq_nil.mp h0).1
      have h2 := (List.append_eq_nil.mp h1).1
      exact List.map_eq_nil_iff.mp h2
    case isFalse => exact Except.noConfusion h
  · intro errs h
    rw [validate_table_eq] at h
    split at h
    case isTrue => exact Except.noConfusion h
    case isFalse hE =>
      have herrs : errs = accumulated_errors sname fields sections entries :=
        (Except.error.inj h).symm
      have hinj : Function.Injective
          (fun key => ValidationError.nonexistentFieldError key sname) := by
        intro a b hab
        injection hab with h1 h2
      constructor
      · refine ⟨fields.filterMap (field_error sname entries)
            ++ sections_errors sections entries, ?_⟩
        rw [herrs]
        simp only [accumulated_errors, List.append_assoc]
      · intro k hk
        have hmapnodup := List.Nodup.map hinj hnodup
        have hmem := List.mem_map_of_mem
          (fun key => ValidationError.nonexistentFieldError key sname) hk
        exact List.count_eq_one_of_mem hmapnodup hmem

/-- C7 (witness): the table with the single unknown key `"extra"` gets
exactly one `NonexistentFieldError` for it in the reported list. -/
theorem validate_reports_all_unrecognized_witness :
    ((["extra"].map
        (fun key => ValidationError.nonexistentFieldError key none)).count
      (ValidationError.nonexistentFieldError "extra" none)) = 1 := by
  have h := (validate_reports_all_unrecognized none CONFIG_FIELDS .nil
      [("extra", Value.other)] (by simp)).2
      [ValidationError.nonexistentFieldError "extra" none,
       ValidationError.missingFieldError "program" none] rfl
  exact h.2 "extra" (by decide)

theorem map_fst_remove_key :
    ∀ (entries : List (String × Value)) (k : String),
      (remove_key entries k).map Prod.fst
        = (entries.map Prod.fst).filter (fun x => x != k)
  | [], _ => rfl
  | (k0, v0) :: rest, k => by
    rw [remove_key_cons]
    by_cases h : k0 = k
    · rw [if_pos h]
      simp only [List.map_cons, List.filter_cons]
      rw [map_fst_remove_key rest k]
      simp [h]
    · rw [if_neg h]
      simp only [List.map_cons, List.filter_cons]
      rw [map_fst_remove_key rest k]
      simp [h]

theorem get_unrecognized_remove_key (fields : List ValidationField)
    (sections : ValidationSections) (entries : List (String × Value))
    (k : String) (hk : k ∈ get_entry_names fields sections) :
    get_unrecognized_entries fields sections (remove_key entries k)
      = get_unrecognized_entries fields sections entries := by
  unfold get_unrecognized_entries
  rw [map_fst_remove_key, List.filter_filter]
  apply List.filter_congr
  intro x hx
  by_cases hxk : x = k
  · subst hxk
    have hcont : (get_entry_names fields sections).contains x = true :=
      List.elem_eq_true_of_mem hk
    simp [hcont]
    exact hk
  · simp [hxk]

theorem field_error_remove_key (sname : Option String)
    (entries : List (String × Value)) (k : String)
    (hnd : (entries.map Prod.fst).Nodup)
    (hmem : (k, Value.pyNone) ∈ entries) (f : ValidationField) :
    field_error sname (remove_key entries k) f
      = field_error sname entries f := by
  by_cases hf : f.name = k
  · unfold field_error
    rw [hf, py_get_remove_key_self,
      py_get_eq_pyNone_of_mem entries k hnd hmem]
  · unfold field_error
    rw [py_get_remove_key_ne entries k f.name hf]

theorem sections_errors_remove_key (entries : List (String × Value))
    (k : String) (hnd : (entries.map Prod.fst).Nodup)
    (hmem : (k, Value.pyNone) ∈ entries) :
    ∀ (sections : ValidationSections),
      sections_errors sections (remove_key entries k)
        = sections_errors sections entries
  | .nil => rfl
  | .cons (.mk name validator optional) rest => by
    simp only [sections_errors]
    rw [sections_errors_remove_key entries k hnd hmem rest]
    congr 1
    simp only [check_section_errors]
    by_cases hn : name = k
    · rw [hn, py_get_remove_key_self,
        py_get_eq_pyNone_of_mem entries k hnd hmem]
    · rw [py_get_remove_key_ne entries k name hn]

/-- C10: a key bound to the `None` sentinel is treated by `validate`
exactly as an absent key: the produced diagnostics and the
success/failure verdict are those of the table with the key removed,
and for a declared field of that name the outcome is
`MissingFieldError` when required and no diagnostic when optional —
the field's predicate is never consulted. -/
theorem validate_none_value_as_absent (sname : Option String)
    (fields : List ValidationField) (sections : ValidationSections)
    (entries : List (String × Value)) (k : String)
    (hnd : (entries.map Prod.fst).Nodup)
    (hmem : (k, Value.pyNone) ∈ entries)
    (hfield : k ∈ fields.map ValidationField.name) :
    (error_list ((Validator.mk sname fields sections).validate
          (.table entries))
        = error_list ((Validator.mk sname fields sections).validate
            (.table (remove_key entries k)))
      ∧ is_success ((Validator.mk sname fields sections).validate
          (.table entries))
        = is_success ((Validator.mk sname fields sections).validate
            (.table (remove_key entries k))))
    ∧ ∀ f ∈ fields, f.name = k →
        (f.optional = false →
          field_error sname entries f
            = some (.missingFieldError k sname))
        ∧ (f.optional = true → field_error sname entries f = none) := by
  have hk : k ∈ get_entry_names fields sections := by
    unfold get_entry_names
    exact List.mem_append.mpr (Or.inl hfield)
  have hacc : accumulated_errors sname fields sections (remove_key entries k)
      = accumulated_errors sname fields sections entries := by
    unfold accumulated_errors
    rw [get_unrecognized_remove_key fields sections entries k hk,
      sections_errors_remove_key entries k hnd hmem sections]
    have hfun : field_error sname (remove_key entries k)
        = field_error sname entries :=
      funext (field_error_remove_key sname entries k hnd hmem)
    rw [hfun]
  constructor
  · rw [validate_table_eq, validate_table_eq, hacc]
    constructor
    · cases hE : (accumulated_errors sname fields sections entries).isEmpty <;>
        simp [error_list]
    · cases hE : (accumulated_errors sname fields sections entries).isEmpty <;>
        simp [is_success]
  · intro f hf hfk
    constructor
    · intro hopt
      unfold field_error
      rw [hfk, py_get_eq_pyNone_of_mem entries k hnd hmem]
      simp [check_field, hopt]
    · intro hopt
      unfold field_error
      rw [hfk, py_get_eq_pyNone_of_mem entries k hnd hmem]
      simp [check_field, hopt]

/-- C10 (witness): in the program section, `name` bound to `None`
behaves as a missing `name`: same diagnostics as the empty table, and
the required field reports `MissingFieldError` without consulting the
`project identifier` predicate. -/
theorem validate_none_value_as_absent_witness :
    error_list (PROGRAM_SECTION_VALIDATOR.validate
        (Value.table [("name", Value.pyNone)]))
      = error_list (PROGRAM_SECTION_VALIDATOR.validate (Value.table []))
    ∧ field_error none [("name", Value.pyNone)]
        ⟨"name", is_project_identifier, false⟩
      = some (ValidationError.missingFieldError "name" none) := by
  have h := validate_none_value_as_absent none
    [⟨"name", is_project_identifier, false⟩,
     ⟨"description", is_string, true⟩] .nil
    [("name", Value.pyNone)] "name" (by simp) (by simp) (by simp)
  exact ⟨h.1.1, (h.2 ⟨"name", is_project_identifier, false⟩ (by simp) rfl).1 rfl⟩
